import Mathlib

/-!
Verification of the alphaedge-labs/trading-bot orchestration core.

Shallow embedding of the signal-to-position engine of the repository:
the capital ledger (`app/services/user_service.py`), the order update
reconciler and position store (`app/services/order_service.py`), the
signal evaluator and position sizing (`app/services/signal_processing_service.py`),
the paper broker order formation (`app/brokers/paper_broker.py`), the
exit P&L computations (`app/services/order_service.py` and
`app/services/trading_service_v2.py`) and the trading hours sweep
(`app/services/signal_processing_service.py`).

Modelling conventions:
* Python floats (prices, money, P&L) are modelled as exact rationals `ℚ`.
  None of the verified claims sits on a binary-float rounding boundary.
* String identifiers (user ids, order ids, position ids) are abstract and
  modelled as `ℕ`.  The Redis instrument key produced by
  `RedisClient._generate_key` ("symbol:expiry:right:strike") is modelled
  as the 4-tuple of its components (`Ident`), which the colon-joined
  string determines and is determined by.
* The MongoDB `users` collection, the Redis `users` hash and the
  in-memory `self.users` dict of `UserService` are modelled as three
  maps in `LedgerState`.  `update_one` with `$inc` mutates the stored
  record exactly as the source does; `modified_count == 0` corresponds
  to the filter matching no document.
* Wall-clock timestamps (`datetime.now()`, `created_at`, `updated_at`),
  logging, and network transport are not modelled; activity-log pushes
  are modelled as list conses so that the mutation structure of the
  source is preserved.
* `is_within_trading_hours` reads the wall clock; it is modelled as an
  oracle `String → String → Bool` passed to the functions that call it.
-/

/-- Enum `OrderStatus` from `app/constants/orders.py`. -/
inductive OrderStatus where
  | PENDING
  | COMPLETED
  | CANCELLED
  | REJECTED
  | OPEN
deriving DecidableEq, Repr

/-- Enum `TransactionType` from `app/constants/orders.py`. -/
inductive TransactionType where
  | BUY
  | SELL
deriving DecidableEq, Repr

/-- Enum `OrderType` from `app/constants/orders.py` (the variants this core uses). -/
inductive OrderType where
  | MARKET
  | LIMIT
deriving DecidableEq, Repr

/-- Enum `PositionStatus` from `app/constants/positions.py`. -/
inductive PositionStatus where
  | OPEN
  | CLOSED
  | EXIT_FAILED
deriving DecidableEq, Repr

/-- Enum `PositionType` from `app/constants/positions.py`. -/
inductive PositionType where
  | LONG
  | SHORT
deriving DecidableEq, Repr

/-- Enum `Broker` from `app/constants/brokers.py`. -/
inductive Broker where
  | PAPER_BROKER
  | KOTAK_NEO
  | ZERODHA_KITE
deriving DecidableEq, Repr

/-- One entry of a user's `activity_logs` array; the source pushes a
timestamped message, modelled by the amounts it interpolates. -/
inductive LogEntry where
  | blocked (amount : ℚ)
  | released (amount : ℚ) (pnl : ℚ)
deriving DecidableEq, Repr

/-- A user document.  The `capital.*`, `risk_management.*` and
`settings.preferred_trading_hours.*` sub-fields are flattened:
`open_positions`, `max_open_positions`, `ideal_risk_reward_ratio` and
`stop_loss_buffer` live under `risk_management`, `th_start`/`th_end`
are `settings.preferred_trading_hours.start/end` (absent keys are
`none`; the empty string is Python-falsy and handled separately). -/
structure UserRec where
  available_balance : ℚ
  total_deployed : ℚ
  open_positions : ℤ
  max_open_positions : ℤ
  ideal_risk_reward_ratio : ℚ
  stop_loss_buffer : ℚ
  th_start : Option String
  th_end : Option String
  active_brokers : List Broker
  activity_logs : List LogEntry
deriving DecidableEq, Repr

/-- The stores a `UserService` instance touches: the MongoDB `users`
collection (keyed by `_id`), the Redis `users` hash, and the in-memory
`self.users` dict. -/
structure LedgerState where
  mongo : ℕ → Option UserRec
  redis : ℕ → Option UserRec
  mem : ℕ → Option UserRec

/-- Model of `UserService.get_user`: read Redis first; on a miss fall back to
MongoDB and, when found there, cache the document in Redis
("Cache in Redis for next time"). -/
def getUser (s : LedgerState) (uid : ℕ) : Option UserRec × LedgerState :=
  match s.redis uid with
  | some u => (some u, s)
  | none =>
    match s.mongo uid with
    | some u => (some u, { s with redis := fun x => if x = uid then some u else s.redis x })
    | none => (none, s)

/-- Model of `UserService.can_block_capital`: returns `False` when the user is not found
or `available_balance < amount`.  (The balance read is the one `get_user`
returns; the caller's state is untouched because a hit needs no cache
fill at the call sites we verify.) -/
def canBlockCapital (user : Option UserRec) (amount : ℚ) : Bool :=
  match user with
  | none => false
  | some u => !(u.available_balance < amount)

/-- Model of `UserService.block_capital`: fetch the user via `get_user`; then a
conditional `update_one` on MongoDB with filter
`{_id: uid, "capital.available_balance": {"$gte": amount}}` applying
`$inc available_balance -= amount, total_deployed += amount,
risk_management.open_positions += 1` and an activity-log `$push`.
`modified_count == 0` (no matching document) returns `False` without
touching the caches; otherwise the *fetched* user dict gets the same
increments applied and is written back to Redis and `self.users`. -/
def blockCapital (s : LedgerState) (uid : ℕ) (amount : ℚ) : Bool × LedgerState :=
  match getUser s uid with
  | (none, s1) => (false, s1)
  | (some u, s1) =>
    match s1.mongo uid with
    | some mu =>
      if amount ≤ mu.available_balance then
        let mu' : UserRec :=
          { mu with
            available_balance := mu.available_balance - amount
            total_deployed := mu.total_deployed + amount
            open_positions := mu.open_positions + 1
            activity_logs := LogEntry.blocked amount :: mu.activity_logs }
        let u' : UserRec :=
          { u with
            available_balance := u.available_balance - amount
            total_deployed := u.total_deployed + amount
            open_positions := u.open_positions + 1 }
        (true,
          { mongo := fun x => if x = uid then some mu' else s1.mongo x
            redis := fun x => if x = uid then some u' else s1.redis x
            mem := fun x => if x = uid then some u' else s1.mem x })
      else (false, s1)
    | none => (false, s1)

/-- Model of `UserService.release_capital`: fetch the user via `get_user`; then an
unconditional `update_one` on MongoDB with filter `{_id: uid}` applying
`$inc available_balance += amount + pnl, total_deployed -= amount,
risk_management.open_positions -= 1` plus the log `$push`; a missing
document (`modified_count == 0`) returns `False`, otherwise the fetched
dict gets the same increments and is written to Redis and `self.users`. -/
def releaseCapital (s : LedgerState) (uid : ℕ) (amount pnl : ℚ) : Bool × LedgerState :=
  match getUser s uid with
  | (none, s1) => (false, s1)
  | (some u, s1) =>
    match s1.mongo uid with
    | some mu =>
      let mu' : UserRec :=
        { mu with
          available_balance := mu.available_balance + (amount + pnl)
          total_deployed := mu.total_deployed - amount
          open_positions := mu.open_positions - 1
          activity_logs := LogEntry.released amount pnl :: mu.activity_logs }
      let u' : UserRec :=
        { u with
          available_balance := u.available_balance + (amount + pnl)
          total_deployed := u.total_deployed - amount
          open_positions := u.open_positions - 1 }
      (true,
        { mongo := fun x => if x = uid then some mu' else s1.mongo x
          redis := fun x => if x = uid then some u' else s1.redis x
          mem := fun x => if x = uid then some u' else s1.mem x })
    | none => (false, s1)

/-- The durable (MongoDB) `available_balance + total_deployed` of a user
(`0` when the document is absent). -/
def sumAt (s : LedgerState) (uid : ℕ) : ℚ :=
  match s.mongo uid with
  | some u => u.available_balance + u.total_deployed
  | none => 0

/-- The durable open-position counter of a user (`0` when absent). -/
def countAt (s : LedgerState) (uid : ℕ) : ℤ :=
  match s.mongo uid with
  | some u => u.open_positions
  | none => 0

/-- The deterministic instrument key `RedisClient._generate_key` builds
as `"{symbol}:{expiry_date}:{right}:{strike_price}"`, modelled as the
tuple of its four components. -/
structure Ident where
  symbol : ℕ
  expiry_date : ℕ
  right : ℕ
  strike_price : ℕ
deriving DecidableEq, Repr

/-- An inbound trade signal (the `data` of a `signals` event). -/
structure Signal where
  symbol : ℕ
  expiry_date : ℕ
  right : ℕ
  strike_price : ℕ
  entry_price : ℚ
  stop_loss : ℚ
  target_price : ℚ
  transaction_type : TransactionType
  lot_size : ℤ
deriving DecidableEq, Repr

/-- Model of `RedisClient._generate_key` applied to a signal dict. -/
def genKeySignal (sig : Signal) : Ident :=
  { symbol := sig.symbol, expiry_date := sig.expiry_date
    right := sig.right, strike_price := sig.strike_price }

/-- Python truthiness of an optional string field: `None` and the empty
string are falsy. -/
def truthyStr : Option String → Bool
  | none => false
  | some s => !(s == "")

/-- Model of `utils/datetime.is_within_trading_hours`, which compares the wall clock to
the configured window; the clock makes it an oracle `w` over the two
time strings.  Only called under the truthiness guard, so the `none`
branches are unreachable there. -/
def withinTradingHours (w : String → String → Bool) : Option String → Option String → Bool
  | some st, some en => w st en
  | _, _ => false

/-- Model of `SignalProcessingService._fits_user_risk_management`: reject when
any of entry price, stop loss, target price or the user's
`ideal_risk_reward_ratio` is Python-falsy (zero/absent); reject when
`entry - stop_loss <= 0`; otherwise accept iff
`(target - entry) / (entry - stop_loss) >= ideal_risk_reward_ratio`. -/
def fitsUserRiskManagement (u : UserRec) (sig : Signal) : Bool :=
  if sig.entry_price = 0 ∨ sig.stop_loss = 0 ∨ sig.target_price = 0 ∨
      u.ideal_risk_reward_ratio = 0 then false
  else if sig.entry_price - sig.stop_loss ≤ 0 then false
  else decide (u.ideal_risk_reward_ratio ≤
    (sig.target_price - sig.entry_price) / (sig.entry_price - sig.stop_loss))

/-- Model of `SignalProcessingService._is_user_eligible`.  Here `view` is the user
record `get_user` returns (its cache-fill side effect does not change
any value the checks read, so only the returned value is modelled);
`m1` is the `position_id_mappings` hash, `m2` the
`position_user_mappings` hash, `w` the trading-hours clock oracle.
The source checks, in order: trading hours (only when both window ends
are truthy), `_fits_user_risk_management`, a shared position id between
`m1` at the signal's identifier and `m2` at the user, the
max-open-positions cap (against the *length of the user's position
list*), and finally the risk-reward ratio once more. -/
def isUserEligible (view : Option UserRec) (sig : Signal)
    (m1 : Ident → List ℕ) (m2 : ℕ → List ℕ) (uid : ℕ)
    (w : String → String → Bool) : Bool :=
  match view with
  | none => false
  | some u =>
    if truthyStr u.th_start && truthyStr u.th_end &&
        !withinTradingHours w u.th_start u.th_end then false
    else if !fitsUserRiskManagement u sig then false
    else
      let identifier := genKeySignal sig
      let user_position_ids := m2 uid
      let existing_position_ids := m1 identifier
      if existing_position_ids.any (fun p => user_position_ids.contains p) then false
      else if u.max_open_positions ≤ (user_position_ids.length : ℤ) then false
      else
        let signal_rr_ratio := (sig.target_price - sig.entry_price) /
          (sig.entry_price - sig.stop_loss)
        if signal_rr_ratio < u.ideal_risk_reward_ratio then false
        else true

/-- Constant `MAX_POSITION_SIZE` from `signal_processing_service.py`. -/
def MAX_POSITION_SIZE : ℤ := 900

/-- The `available_capital_per_position` of
`SignalProcessingService._calculate_position_size`. -/
def capitalPerSlot (u : UserRec) : ℚ :=
  u.available_balance / ((u.max_open_positions : ℚ) - (u.open_positions : ℚ))

/-- The `risk_per_trade` of `_calculate_position_size`
(`available_capital_per_position * (ideal_risk_reward_ratio / 100)`). -/
def riskAmount (u : UserRec) : ℚ :=
  capitalPerSlot u * (u.ideal_risk_reward_ratio / 100)

/-- The `adjusted_stop_loss` of `_calculate_position_size`
(`stop_loss * (1 - stop_loss_buffer / 100)`). -/
def adjustedStopLoss (u : UserRec) (stop_loss : ℚ) : ℚ :=
  stop_loss * (1 - u.stop_loss_buffer / 100)

/-- The quantity `risk_per_unit = abs(entry_price - adjusted_stop_loss)`. -/
def riskPerUnit (u : UserRec) (entry_price stop_loss : ℚ) : ℚ :=
  |entry_price - adjustedStopLoss u stop_loss|

/-- Model of `SignalProcessingService._calculate_required_capital`: for the paper
broker, `entry_price * quantity`; for a live broker the amount comes
from the broker's margin API (network I/O), supplied as `marginQuery`. -/
def calcRequiredCapital (broker : Broker) (entry_price : ℚ) (quantity : ℤ)
    (marginQuery : ℚ) : ℚ :=
  match broker with
  | Broker.PAPER_BROKER => entry_price * (quantity : ℚ)
  | _ => marginQuery

/-- Model of `SignalProcessingService._calculate_position_size`, returning
`(quantity, required_capital)`; every `raise ValueError`, the
`ZeroDivisionError` of `quantity // lot_size` when `lot_size == 0`, and
the explicit skip paths all return `(0, 999999999999)`.  The user record
`u` is both the record sizing reads and the one `can_block_capital`
re-reads (identical at this call site, which runs before any capital
mutation). -/
def calcPositionSize (u : UserRec) (broker : Broker) (entry_price stop_loss : ℚ)
    (lot_size : ℤ) (marginQuery : ℚ) : ℤ × ℚ :=
  if u.available_balance ≤ 0 then (0, 999999999999)
  else if u.max_open_positions ≤ u.open_positions then (0, 999999999999)
  else if capitalPerSlot u ≤ 0 then (0, 999999999999)
  else
    let risk_per_trade := riskAmount u
    let risk_per_unit := riskPerUnit u entry_price stop_loss
    if risk_per_unit ≤ 0 then (0, 999999999999)
    else if lot_size = 0 then (0, 999999999999)
    else
      let quantity0 := risk_per_trade / risk_per_unit
      let quantity1 := max 1 (⌊quantity0 / (lot_size : ℚ)⌋ * lot_size)
      if quantity1 < lot_size then (0, 999999999999)
      else
        let quantity2 := min quantity1 MAX_POSITION_SIZE
        let required_capital := calcRequiredCapital broker entry_price quantity2 marginQuery
        if canBlockCapital (some u) required_capital then (quantity2, required_capital)
        else (0, 999999999999)

/-- The order dict `SignalProcessingService._create_order_for_user`
composes before placement (no broker order id yet, no position id). -/
structure OrderDraft where
  user_id : ℕ
  broker : Broker
  identifier : Ident
  lot_size : ℤ
  symbol : ℕ
  strike_price : ℕ
  expiry_date : ℕ
  right : ℕ
  entry_price : ℚ
  stop_loss : ℚ
  target : ℚ
  transaction_type : TransactionType
  position_type : PositionType
  status : OrderStatus
  quantity : ℤ
  capital_to_block : ℚ
deriving DecidableEq, Repr

/-- Model of `SignalProcessingService._create_order_for_user`: take the user's
first active broker (no broker → no order), size the position, and skip
the user (`None`) when the computed quantity is `0`. -/
def createOrderForUser (u : UserRec) (uid : ℕ) (sig : Signal)
    (marginQuery : ℚ) : Option OrderDraft :=
  match u.active_brokers with
  | [] => none
  | broker :: _ =>
    let sized := calcPositionSize u broker sig.entry_price sig.stop_loss sig.lot_size marginQuery
    if sized.1 = 0 then none
    else some
      { user_id := uid
        broker := broker
        identifier := genKeySignal sig
        lot_size := sig.lot_size
        symbol := sig.symbol
        strike_price := sig.strike_price
        expiry_date := sig.expiry_date
        right := sig.right
        entry_price := sig.entry_price
        stop_loss := sig.stop_loss
        target := sig.target_price
        transaction_type := sig.transaction_type
        position_type := if sig.transaction_type = TransactionType.BUY
          then PositionType.LONG else PositionType.SHORT
        status := OrderStatus.OPEN
        quantity := sized.1
        capital_to_block := sized.2 }

/-- The per-user body of `SignalProcessingService._process_signal`:
an entry order is composed for a user only if `_is_user_eligible`
returned `True`. -/
def composeOrderForUser (view : Option UserRec) (sig : Signal)
    (m1 : Ident → List ℕ) (m2 : ℕ → List ℕ) (uid : ℕ)
    (w : String → String → Bool) (marginQuery : ℚ) : Option OrderDraft :=
  if isUserEligible view sig m1 m2 uid w then
    match view with
    | some u => createOrderForUser u uid sig marginQuery
    | none => none
  else none

/-- The per-user body of the periodic sweep
`SignalProcessingService._check_trading_hours`: `continue` (no force
exit) when either window end is falsy; otherwise force-exit exactly when
the clock is outside the window and the user's position list is
nonempty.  Returns whether `exit_all_positions_for_user` is invoked. -/
def sweepForceExit (u : UserRec) (user_positions : List ℕ)
    (w : String → String → Bool) : Bool :=
  if !truthyStr u.th_start || !truthyStr u.th_end then false
  else if !withinTradingHours w u.th_start u.th_end && !user_positions.isEmpty then true
  else false

/-- A durable order document of the `orders` collection, as created by
`_execute_orders` (entry) or `TradingService.manage_positions` (exit).
`position_id` is the back-reference set by
`OrderService._update_order_with_position_id` (absent until an entry
fill creates a position; exit orders carry it at insertion). -/
structure OrderRec where
  order_id : ℕ
  user_id : ℕ
  broker : Broker
  identifier : Ident
  symbol : ℕ
  strike_price : ℕ
  expiry_date : ℕ
  right : ℕ
  entry_price : ℚ
  stop_loss : ℚ
  target : ℚ
  quantity : ℤ
  position_type : PositionType
  is_exit : Bool
  position_id : Option ℕ
  capital_to_block : ℚ
  status : OrderStatus
deriving DecidableEq, Repr

/-- A record of the Redis `positions` hash, with the fields
`OrderService._create_or_update_position` writes (wall-clock timestamp
strings omitted; `exit_price` is the key `_close_position` adds on
close, `0` until then). -/
structure Position where
  entry_order_id : ℕ
  position_id : ℕ
  user_id : ℕ
  symbol : ℕ
  right : ℕ
  strike_price : ℕ
  expiry_date : ℕ
  identifier : Ident
  broker : Broker
  position_type : PositionType
  quantity : ℤ
  entry_price : ℚ
  current_price : ℚ
  unrealized_pnl : ℚ
  realized_pnl : ℚ
  stop_loss : ℚ
  take_profit : ℚ
  status : PositionStatus
  should_exit : Bool
  blocked_capital : ℚ
  exit_price : ℚ
deriving DecidableEq, Repr

/-- Model of `RedisClient._generate_key` applied to a position dict
(`_close_position` line `identifier = self.redis_client._generate_key(position)`). -/
def genKeyPos (pos : Position) : Ident :=
  { symbol := pos.symbol, expiry_date := pos.expiry_date
    right := pos.right, strike_price := pos.strike_price }

/-- A broker execution callback as consumed by
`OrderService._process_order_update` (`order_data`): the Redis hash entry
carries at least `order_id`, `status` and, for fills, `average_price`. -/
structure OrderUpdate where
  order_id : ℕ
  status : OrderStatus
  average_price : ℚ
deriving DecidableEq, Repr

/-- The stores `OrderService` touches: the user ledger, the `orders`
collection (keyed by the `order_id` field), the Redis `positions` hash,
the two position index mappings (the JSON-list values are kept
deduplicated by the `set(...)` round-trips in the source; an absent hash
key and an empty list are observationally identical through
`get_hash(...) or []`), the `closed_positions` archive, and a counter
standing for the `generate_id()` source of fresh position ids. -/
structure EngineState where
  ledger : LedgerState
  orders : ℕ → Option OrderRec
  positions : ℕ → Option Position
  posIdMap : Ident → List ℕ
  posUserMap : ℕ → List ℕ
  closedPositions : List Position
  nextId : ℕ

/-- The unconditional `update_one({"order_id": oid}, {"$set": {"status": st}})`
at the top of `_process_order_update` (no-op when no document matches). -/
def updateOrderStatus (orders : ℕ → Option OrderRec) (oid : ℕ)
    (st : OrderStatus) : ℕ → Option OrderRec :=
  fun x => if x = oid then (orders oid).map (fun o => { o with status := st }) else orders x

/-- The realized P&L `OrderService._close_position` records:
`pnl = float(position["unrealized_pnl"])`, negated when
`position_type == 'SHORT'`. -/
def closePositionRealizedPnl (pos : Position) : ℚ :=
  if pos.position_type = PositionType.SHORT then -pos.unrealized_pnl else pos.unrealized_pnl

/-- Model of `OrderService._close_position`: fetch the position (missing → log
and return); compute the final P&L from the cached `unrealized_pnl`;
archive the CLOSED position in `closed_positions`; release the blocked
capital for the position's user with that P&L; delete the position
hash entry and discard the position id from both index mappings
(`_cleanup_mapping` deletes the key when the set empties, which the
empty list models). -/
def closePosition (s : EngineState) (positionId : Option ℕ)
    (upd : OrderUpdate) : EngineState :=
  match positionId with
  | none => s
  | some pid =>
    match s.positions pid with
    | none => s
    | some pos =>
      let pnl := closePositionRealizedPnl pos
      let closed : Position :=
        { pos with
          status := PositionStatus.CLOSED
          exit_price := upd.average_price
          unrealized_pnl := 0
          realized_pnl := pnl }
      let ledger' := (releaseCapital s.ledger pos.user_id pos.blocked_capital pnl).2
      { s with
        ledger := ledger'
        closedPositions := closed :: s.closedPositions
        positions := fun x => if x = pid then none else s.positions x
        posIdMap := fun i => if i = genKeyPos pos
          then (s.posIdMap i).filter (fun p => p ≠ pid) else s.posIdMap i
        posUserMap := fun v => if v = pos.user_id
          then (s.posUserMap v).filter (fun p => p ≠ pid) else s.posUserMap v }

/-- Model of `OrderService._create_or_update_position`: when the completed entry
order already carries a `position_id` the call only logs
"already exists" and changes nothing; otherwise it mints a fresh
position id, writes the OPEN position built from the order's fields,
adds the id to both index mappings (set-insert), and stores the
back-reference on the order document. -/
def createOrUpdatePosition (s : EngineState) (positionId : Option ℕ)
    (order : OrderRec) : EngineState :=
  match positionId with
  | some _ => s
  | none =>
    let pid := s.nextId
    let position_data : Position :=
      { entry_order_id := order.order_id
        position_id := pid
        user_id := order.user_id
        symbol := order.symbol
        right := order.right
        strike_price := order.strike_price
        expiry_date := order.expiry_date
        identifier := order.identifier
        broker := order.broker
        position_type := order.position_type
        quantity := order.quantity
        entry_price := order.entry_price
        current_price := order.entry_price
        unrealized_pnl := 0
        realized_pnl := 0
        stop_loss := order.stop_loss
        take_profit := order.target
        status := PositionStatus.OPEN
        should_exit := false
        blocked_capital := order.capital_to_block
        exit_price := 0 }
    { s with
      positions := fun x => if x = pid then some position_data else s.positions x
      posIdMap := fun i => if i = order.identifier
        then (s.posIdMap i).insert pid else s.posIdMap i
      posUserMap := fun v => if v = order.user_id
        then (s.posUserMap v).insert pid else s.posUserMap v
      orders := fun x => if x = order.order_id
        then (s.orders order.order_id).map (fun o => { o with position_id := some pid })
        else s.orders x
      nextId := s.nextId + 1 }

/-- Model of `OrderService._process_order_update`: set the order's status
unconditionally; on COMPLETED re-read the order and dispatch to
`_close_position` (exit) or `_create_or_update_position` (entry); on
CANCELLED/REJECTED re-read the order and attempt to release its blocked
capital — but the source passes a fourth positional argument (`remark`)
to the three-parameter `UserService.release_capital`, so the call raises
`TypeError`, the surrounding `except` swallows it, and no release (nor
any other mutation) happens on that branch. -/
def processOrderUpdate (s : EngineState) (_user_id : ℕ) (upd : OrderUpdate) : EngineState :=
  let s1 : EngineState := { s with orders := updateOrderStatus s.orders upd.order_id upd.status }
  match upd.status with
  | OrderStatus.COMPLETED =>
    match s1.orders upd.order_id with
    | none => s1
    | some order =>
      if order.is_exit then closePosition s1 order.position_id upd
      else createOrUpdatePosition s1 order.position_id order
  | OrderStatus.CANCELLED =>
    match s1.orders upd.order_id with
    | none => s1
    | some _order => s1
  | OrderStatus.REJECTED =>
    match s1.orders upd.order_id with
    | none => s1
    | some _order => s1
  | _ => s1

/-- The realized P&L formula of `trading_service_v2.py`
`TradingService.manage_positions`:
`realized_pnl = (exit_price - entry_price) * quantity`, where
`exit_price = order_result["average_price"]` — computed identically for
LONG and SHORT positions (the position's `position_type` is not read). -/
def v2RealizedPnl (pos : Position) (average_price : ℚ) : ℚ :=
  (average_price - pos.entry_price) * (pos.quantity : ℚ)

/-- The order request `PaperBroker.form_order` builds (timestamp
omitted; the options-specific block is included since every order this
engine forms carries the options fields). -/
structure FormedOrder where
  symbol : ℕ
  quantity : ℤ
  transaction_type : TransactionType
  order_type : OrderType
  price : ℚ
  trigger_price : ℚ
  disclosed_quantity : ℤ
  user_id : ℕ
  strike_price : ℕ
  expiry_date : ℕ
  right : ℕ
deriving DecidableEq, Repr

/-- The generic order intent `form_order` consumes: either a composed
entry order dict or a position dict of an exit. -/
structure IntentData where
  symbol : ℕ
  quantity : ℤ
  transaction_type : TransactionType
  entry_price : ℚ
  stop_loss : ℚ
  strike_price : ℕ
  expiry_date : ℕ
  right : ℕ
deriving DecidableEq, Repr

/-- Model of `PaperBroker.form_order(data, is_exit)`: for an exit, flip the
transaction type (`SELL if t == BUY else BUY`) and force a MARKET
order; otherwise keep the intent's direction and use a LIMIT order.
`client_id` is the broker instance's user. -/
def formOrder (client_id : ℕ) (data : IntentData) (is_exit : Bool) : FormedOrder :=
  let transaction_type :=
    if is_exit then
      (if data.transaction_type = TransactionType.BUY
        then TransactionType.SELL else TransactionType.BUY)
    else data.transaction_type
  { symbol := data.symbol
    quantity := data.quantity
    transaction_type := transaction_type
    order_type := if is_exit then OrderType.MARKET else OrderType.LIMIT
    price := data.entry_price
    trigger_price := data.stop_loss
    disclosed_quantity := 0
    user_id := client_id
    strike_price := data.strike_price
    expiry_date := data.expiry_date
    right := data.right }

/-- A capital-ledger call for one user: `block_capital(amount)` or
`release_capital(amount, pnl)`. -/
inductive CapitalOp where
  | blk (amount : ℚ)
  | rel (amount : ℚ) (pnl : ℚ)
deriving DecidableEq, Repr

/-- Apply one ledger call (keeping only the resulting state). -/
def applyCapitalOp (s : LedgerState) (uid : ℕ) : CapitalOp → LedgerState
  | CapitalOp.blk amount => (blockCapital s uid amount).2
  | CapitalOp.rel amount pnl => (releaseCapital s uid amount pnl).2

/-- Run a sequence of ledger calls for one user, in order. -/
def applyCapitalOps (s : LedgerState) (uid : ℕ) : List CapitalOp → LedgerState
  | [] => s
  | op :: rest => applyCapitalOps (applyCapitalOp s uid op) uid rest

/-- The sum of the P&L values passed to the `release_capital` calls of a
sequence. -/
def pnlTotal : List CapitalOp → ℚ
  | [] => 0
  | CapitalOp.blk _ :: rest => pnlTotal rest
  | CapitalOp.rel _ pnl :: rest => pnl + pnlTotal rest

/-- C9: for every order intent, `PaperBroker.form_order` with
`is_exit = true` flips the transaction direction (BUY becomes SELL and
SELL becomes BUY) and forces a MARKET order type; with
`is_exit = false` the direction is preserved. -/
theorem c9_form_order_exit_flip (client_id : ℕ) (data : IntentData) :
    (data.transaction_type = TransactionType.BUY →
      (formOrder client_id data true).transaction_type = TransactionType.SELL) ∧
    (data.transaction_type = TransactionType.SELL →
      (formOrder client_id data true).transaction_type = TransactionType.BUY) ∧
    (formOrder client_id data true).order_type = OrderType.MARKET ∧
    (formOrder client_id data false).transaction_type = data.transaction_type := by
  cases h : data.transaction_type <;> simp [formOrder, h]

/-- Concrete BUY intent used to witness `c9_form_order_exit_flip`. -/
def intentC9 : IntentData :=
  { symbol := 1, quantity := 50, transaction_type := TransactionType.BUY
    entry_price := 100, stop_loss := 95, strike_price := 2, expiry_date := 3, right := 4 }

/-- Witness for C9 at a concrete BUY intent. -/
theorem c9_witness :
    (formOrder 1 intentC9 true).transaction_type = TransactionType.SELL ∧
    (formOrder 1 intentC9 true).order_type = OrderType.MARKET ∧
    (formOrder 1 intentC9 false).transaction_type = intentC9.transaction_type :=
  ⟨(c9_form_order_exit_flip 1 intentC9).1 rfl,
   (c9_form_order_exit_flip 1 intentC9).2.2.1,
   (c9_form_order_exit_flip 1 intentC9).2.2.2⟩

/-- C10: a user whose preferred trading hours lack a start or an end
time is never rejected on trading-hours grounds (eligibility is
independent of the clock oracle) and is never force-exited by the
periodic trading-hours sweep. -/
theorem c10_missing_trading_hours :
    (∀ (u : UserRec) (sig : Signal) (m1 : Ident → List ℕ) (m2 : ℕ → List ℕ)
        (uid : ℕ) (w w' : String → String → Bool),
      u.th_start = none ∨ u.th_end = none →
      isUserEligible (some u) sig m1 m2 uid w = isUserEligible (some u) sig m1 m2 uid w') ∧
    (∀ (u : UserRec) (user_positions : List ℕ) (w : String → String → Bool),
      u.th_start = none ∨ u.th_end = none →
      sweepForceExit u user_positions w = false) := by
  constructor
  · intro u sig m1 m2 uid w w' h
    rcases h with h | h <;> simp [isUserEligible, truthyStr, h]
  · intro u ps w h
    rcases h with h | h <;> simp [sweepForceExit, truthyStr, h]

/-- User without a configured trading-hours start, witnessing C10. -/
def uC10 : UserRec :=
  { available_balance := 1000, total_deployed := 0, open_positions := 0
    max_open_positions := 5, ideal_risk_reward_ratio := 2.5, stop_loss_buffer := 0.5
    th_start := none, th_end := some "15:30"
    active_brokers := [Broker.PAPER_BROKER], activity_logs := [] }

/-- Signal used to witness C10. -/
def sigC10 : Signal :=
  { symbol := 1, expiry_date := 2, right := 3, strike_price := 4
    entry_price := 100, stop_loss := 90, target_price := 130
    transaction_type := TransactionType.BUY, lot_size := 25 }

/-- Witness for C10 at a concrete user with no start time. -/
theorem c10_witness :
    isUserEligible (some uC10) sigC10 (fun _ => []) (fun _ => []) 1 (fun _ _ => true) =
      isUserEligible (some uC10) sigC10 (fun _ => []) (fun _ => []) 1 (fun _ _ => false) ∧
    sweepForceExit uC10 [3] (fun _ _ => false) = false :=
  ⟨c10_missing_trading_hours.1 uC10 sigC10 _ _ 1 _ _ (Or.inl rfl),
   c10_missing_trading_hours.2 uC10 [3] _ (Or.inl rfl)⟩

/-- User with `ideal_risk_reward_ratio = 0`, a Python-falsy value that
`_fits_user_risk_management` rejects before any ratio arithmetic. -/
def uC8zero : UserRec :=
  { available_balance := 100000, total_deployed := 0, open_positions := 0
    max_open_positions := 5, ideal_risk_reward_ratio := 0, stop_loss_buffer := 0.5
    th_start := none, th_end := none
    active_brokers := [Broker.PAPER_BROKER], activity_logs := [] }

/-- User with `ideal_risk_reward_ratio = 2.5` for the C8 examples. -/
def uC8 : UserRec :=
  { available_balance := 100000, total_deployed := 0, open_positions := 0
    max_open_positions := 5, ideal_risk_reward_ratio := 2.5, stop_loss_buffer := 0.5
    th_start := none, th_end := none
    active_brokers := [Broker.PAPER_BROKER], activity_logs := [] }

/-- Signal `entry=100, stop_loss=90, target_price=130`. -/
def sigC8good : Signal :=
  { symbol := 1, expiry_date := 2, right := 3, strike_price := 4
    entry_price := 100, stop_loss := 90, target_price := 130
    transaction_type := TransactionType.BUY, lot_size := 25 }

/-- Signal `entry=100, stop_loss=90, target_price=120`. -/
def sigC8bad : Signal :=
  { symbol := 1, expiry_date := 2, right := 3, strike_price := 4
    entry_price := 100, stop_loss := 90, target_price := 120
    transaction_type := TransactionType.BUY, lot_size := 25 }

/-- C8 counterexample: for the user with `ideal_risk_reward_ratio = 0`
and the signal `entry=100, stop_loss=90, target_price=130`, the claimed
acceptance condition holds (`entry - stop_loss = 10 > 0` and
`(target - entry)/(entry - stop_loss) = 3 ≥ 0`), yet the check rejects,
because the source treats a zero (Python-falsy) ratio, entry, stop or
target as missing data — so "accepts exactly when the ratio condition
holds" is false. -/
theorem c8_counterexample :
    fitsUserRiskManagement uC8zero sigC8good = false ∧
    0 < sigC8good.entry_price - sigC8good.stop_loss ∧
    uC8zero.ideal_risk_reward_ratio ≤
      (sigC8good.target_price - sigC8good.entry_price) /
        (sigC8good.entry_price - sigC8good.stop_loss) := by
  refine ⟨?_, ?_, ?_⟩ <;> norm_num [fitsUserRiskManagement, uC8zero, sigC8good]

/-- C8 (amended): the risk-reward check accepts exactly when entry
price, stop loss, target price and the user's ratio are all nonzero
(present), `entry - stop_loss > 0`, and
`(target - entry)/(entry - stop_loss) ≥ ideal_risk_reward_ratio`; in
particular it rejects whenever `entry - stop_loss ≤ 0`, accepts the
`target=130` example at ratio 2.5 and rejects the `target=120` one. -/
theorem c8_risk_reward_check (u : UserRec) (sig : Signal) :
    (fitsUserRiskManagement u sig = true ↔
      (sig.entry_price ≠ 0 ∧ sig.stop_loss ≠ 0 ∧ sig.target_price ≠ 0 ∧
       u.ideal_risk_reward_ratio ≠ 0 ∧
       0 < sig.entry_price - sig.stop_loss ∧
       u.ideal_risk_reward_ratio ≤
         (sig.target_price - sig.entry_price) / (sig.entry_price - sig.stop_loss))) ∧
    fitsUserRiskManagement uC8 sigC8good = true ∧
    fitsUserRiskManagement uC8 sigC8bad = false := by
  refine ⟨?_, ?_, ?_⟩
  · unfold fitsUserRiskManagement
    by_cases h1 : sig.entry_price = 0 ∨ sig.stop_loss = 0 ∨ sig.target_price = 0 ∨
        u.ideal_risk_reward_ratio = 0
    · rw [if_pos h1]
      simp only [Bool.false_eq_true, false_iff]
      rintro ⟨he, hs, ht, hr, -, -⟩
      rcases h1 with h | h | h | h
      exacts [he h, hs h, ht h, hr h]
    · rw [if_neg h1]
      push_neg at h1
      obtain ⟨he, hs, ht, hr⟩ := h1
      by_cases h2 : sig.entry_price - sig.stop_loss ≤ 0
      · rw [if_pos h2]
        simp only [Bool.false_eq_true, false_iff]
        rintro ⟨-, -, -, -, hpos, -⟩
        exact absurd h2 (not_le.2 hpos)
      · rw [if_neg h2]
        simp only [decide_eq_true_eq]
        constructor
        · intro hle
          exact ⟨he, hs, ht, hr, lt_of_not_le h2, hle⟩
        · rintro ⟨-, -, -, -, -, hle⟩
          exact hle
  · norm_num [fitsUserRiskManagement, uC8, sigC8good]
  · norm_num [fitsUserRiskManagement, uC8, sigC8bad]

/-- The C6 user: `available_balance=100000, max_open_positions=5,
open_positions=0, ideal_risk_reward_ratio=2.5, stop_loss_buffer=0.5`,
paper broker. -/
def uC6 : UserRec :=
  { available_balance := 100000, total_deployed := 0, open_positions := 0
    max_open_positions := 5, ideal_risk_reward_ratio := 2.5, stop_loss_buffer := 0.5
    th_start := none, th_end := none
    active_brokers := [Broker.PAPER_BROKER], activity_logs := [] }

/-- The C6 signal: `entry_price=100, stop_loss=95, lot_size=25`. -/
def sigC6 : Signal :=
  { symbol := 10, expiry_date := 11, right := 12, strike_price := 13
    entry_price := 100, stop_loss := 95, target_price := 110
    transaction_type := TransactionType.BUY, lot_size := 25 }

/-- Evaluation `floor(500/5.475/25) = 3` (the claim's own floor, with the divisor
cast from the integer lot size). -/
theorem uC6_floor : ⌊(500 : ℚ) / (5.475 : ℚ) / (((25 : ℤ) : ℚ))⌋ = 3 := by
  rw [show (((25 : ℤ) : ℚ)) = 25 by norm_num]
  rw [Int.floor_eq_iff]
  norm_num

/-- Evaluation `capital_per_slot = 100000 / (5 - 0) = 20000` for the C6 user. -/
theorem uC6_capitalPerSlot : capitalPerSlot uC6 = 20000 := by
  norm_num [capitalPerSlot, uC6]

/-- Evaluation `risk_amount = 20000 * (2.5/100) = 500` for the C6 user. -/
theorem uC6_riskAmount : riskAmount uC6 = 500 := by
  norm_num [riskAmount, capitalPerSlot, uC6]

/-- Evaluation `adjusted_stop = 95 * (1 - 0.5/100) = 94.525` for the C6 user. -/
theorem uC6_adjustedStop : adjustedStopLoss uC6 95 = 94.525 := by
  norm_num [adjustedStopLoss, uC6]

/-- Evaluation `risk_per_unit = |100 - 94.525| = 5.475` for the C6 user. -/
theorem uC6_riskPerUnit : riskPerUnit uC6 100 95 = 5.475 := by
  rw [riskPerUnit, adjustedStopLoss]
  rw [show (100 : ℚ) - 95 * (1 - uC6.stop_loss_buffer / 100) = 5.475 by
    norm_num [uC6]]
  norm_num

/-- The C6 sizing: quantity 75 at required capital `100 * 75 = 7500`. -/
theorem uC6_calcPositionSize :
    calcPositionSize uC6 Broker.PAPER_BROKER 100 95 25 0 = (75, 7500) := by
  rw [calcPositionSize]
  simp only [uC6_capitalPerSlot, uC6_riskAmount, uC6_riskPerUnit, uC6_floor]
  norm_num [uC6, canBlockCapital, calcRequiredCapital, MAX_POSITION_SIZE,
    max_def, min_def]

/-- Fact: `_create_order_for_user` composes an order for the C6 user. -/
theorem uC6_createOrder : createOrderForUser uC6 1 sigC6 0 ≠ none := by
  have hbrokers : uC6.active_brokers = [Broker.PAPER_BROKER] := rfl
  have hentry : sigC6.entry_price = 100 := rfl
  have hstop : sigC6.stop_loss = 95 := rfl
  have hlot : sigC6.lot_size = 25 := rfl
  simp only [createOrderForUser, hbrokers, hentry, hstop, hlot, uC6_calcPositionSize]
  norm_num
  exact Option.some_ne_none _

/-- C6 counterexample: with the claimed inputs the computed quantity is
`max(1, floor(500/5.475/25)*25) = 3*25 = 75`, not `0` — the claim's own
formula evaluates to 75 — so the signal is *not* skipped: an order is
composed for the user. -/
theorem c6_counterexample :
    (calcPositionSize uC6 Broker.PAPER_BROKER 100 95 25 0).1 = 75 ∧
    (calcPositionSize uC6 Broker.PAPER_BROKER 100 95 25 0).1 ≠ 0 ∧
    createOrderForUser uC6 1 sigC6 0 ≠ none := by
  refine ⟨by rw [uC6_calcPositionSize], by rw [uC6_calcPositionSize]; norm_num,
    uC6_createOrder⟩

/-- C6 (amended): the claimed inputs give `capital_per_slot = 20000`,
`risk_amount = 500`, `adjusted_stop = 94.525`, `risk_per_unit = 5.475`
as stated, but `quantity = floor(500/5.475/25)*25 = 75 ≥` one lot, so
sizing returns quantity 75 with required capital 7500 and an order is
composed for the user (the signal is not skipped). -/
theorem c6_position_sizing :
    capitalPerSlot uC6 = 20000 ∧
    riskAmount uC6 = 500 ∧
    adjustedStopLoss uC6 95 = 94.525 ∧
    riskPerUnit uC6 100 95 = 5.475 ∧
    calcPositionSize uC6 Broker.PAPER_BROKER 100 95 25 0 = (75, 7500) ∧
    (createOrderForUser uC6 1 sigC6 0).isSome = true := by
  refine ⟨uC6_capitalPerSlot, uC6_riskAmount, uC6_adjustedStop, uC6_riskPerUnit,
    uC6_calcPositionSize, ?_⟩
  rcases h : createOrderForUser uC6 1 sigC6 0 with _ | o
  · exact absurd h uC6_createOrder
  · rfl

/-- A SHORT position with `entry_price=100`, `quantity=50`, whose cached
`unrealized_pnl` at exit time is `(110 - 100) * 50 = 500`. -/
def posC7 : Position :=
  { entry_order_id := 1, position_id := 2, user_id := 3
    symbol := 1, right := 2, strike_price := 3, expiry_date := 4
    identifier := { symbol := 1, expiry_date := 4, right := 2, strike_price := 3 }
    broker := Broker.PAPER_BROKER, position_type := PositionType.SHORT
    quantity := 50, entry_price := 100, current_price := 110
    unrealized_pnl := 500, realized_pnl := 0, stop_loss := 95, take_profit := 120
    status := PositionStatus.OPEN, should_exit := true
    blocked_capital := 5000, exit_price := 0 }

/-- C7: closing the SHORT position of the claim's example
(`entry_price=100, exit_price=110, quantity=50`) through
`trading_service_v2.TradingService.manage_positions` records
`realized_pnl = (110 - 100) * 50 = +500`, not the `-500` the claim
requires — the formula never flips the sign for SHORT.  The reconciler
path (`OrderService._close_position`) does negate for SHORT (giving
`-500` from the cached unrealized P&L), confirming the flip is the
intent. -/
theorem c7_short_exit_pnl :
    v2RealizedPnl posC7 110 = 500 ∧
    v2RealizedPnl posC7 110 ≠ -500 ∧
    closePositionRealizedPnl posC7 = -500 := by
  refine ⟨?_, ?_, ?_⟩ <;>
    norm_num [v2RealizedPnl, closePositionRealizedPnl, posC7]

/-- The C5 user: `available_balance=5000, total_deployed=1000`, one open
position. -/
def uC5 : UserRec :=
  { available_balance := 5000, total_deployed := 1000, open_positions := 1
    max_open_positions := 5, ideal_risk_reward_ratio := 2.5, stop_loss_buffer := 0.5
    th_start := none, th_end := none
    active_brokers := [Broker.PAPER_BROKER], activity_logs := [] }

/-- A PENDING entry order with `capital_to_block = 1000` for user 1. -/
def oC5 : OrderRec :=
  { order_id := 5, user_id := 1, broker := Broker.PAPER_BROKER
    identifier := { symbol := 1, expiry_date := 2, right := 3, strike_price := 4 }
    symbol := 1, strike_price := 4, expiry_date := 2, right := 3
    entry_price := 100, stop_loss := 95, target := 110, quantity := 10
    position_type := PositionType.LONG, is_exit := false, position_id := none
    capital_to_block := 1000, status := OrderStatus.PENDING }

/-- Engine state holding user 1 (durably) and the pending order 5. -/
def sC5 : EngineState :=
  { ledger :=
      { mongo := fun x => if x = 1 then some uC5 else none
        redis := fun _ => none
        mem := fun _ => none }
    orders := fun x => if x = 5 then some oC5 else none
    positions := fun _ => none
    posIdMap := fun _ => []
    posUserMap := fun _ => []
    closedPositions := []
    nextId := 0 }

/-- The CANCELLED broker callback for order 5. -/
def updC5 : OrderUpdate :=
  { order_id := 5, status := OrderStatus.CANCELLED, average_price := 0 }

/-- C5: on a CANCELLED callback the reconciler marks the order terminal
and creates no position, but the user's capital is *not* released — the
source invokes `release_capital(user_id, amount, 0, remark)` with four
positional arguments against a three-parameter signature, the
`TypeError` is swallowed, and the durable user document stays exactly
as it was (`available_balance` 5000, `total_deployed` 1000). -/
theorem c5_cancelled_releases_no_capital :
    (processOrderUpdate sC5 1 updC5).ledger.mongo 1 = some uC5 ∧
    (processOrderUpdate sC5 1 updC5).orders 5 =
      some { oC5 with status := OrderStatus.CANCELLED } ∧
    (∀ pid, (processOrderUpdate sC5 1 updC5).positions pid = none) ∧
    (processOrderUpdate sC5 1 updC5).closedPositions = [] := by
  refine ⟨rfl, ?_, fun pid => rfl, rfl⟩
  simp [processOrderUpdate, updateOrderStatus, sC5, updC5]

/-- C3: (i) whenever the `position_id_mappings` entry for the signal's
instrument identifier and the `position_user_mappings` entry for the
user share a position id, signal evaluation composes no entry order for
that user (`_is_user_eligible`'s duplicate check rejects); (ii) position
creation from a completed entry order
(`_create_or_update_position`) creates a position only when the order
carries no `position_id` yet — with one present the state is unchanged. -/
theorem c3_position_uniqueness :
    (∀ (view : Option UserRec) (sig : Signal) (m1 : Ident → List ℕ)
        (m2 : ℕ → List ℕ) (uid : ℕ) (w : String → String → Bool)
        (marginQuery : ℚ) (p : ℕ),
      p ∈ m1 (genKeySignal sig) → p ∈ m2 uid →
      composeOrderForUser view sig m1 m2 uid w marginQuery = none) ∧
    (∀ (s : EngineState) (pid : ℕ) (order : OrderRec),
      createOrUpdatePosition s (some pid) order = s) := by
  constructor
  · intro view sig m1 m2 uid w marginQuery p hp1 hp2
    have hany : (m1 (genKeySignal sig)).any (fun q => (m2 uid).contains q) = true := by
      rw [List.any_eq_true]
      exact ⟨p, hp1, by simpa [List.contains] using hp2⟩
    have helig : isUserEligible view sig m1 m2 uid w = false := by
      cases view with
      | none => rfl
      | some u =>
        simp only [isUserEligible, hany]
        split_ifs <;> rfl
    simp [composeOrderForUser, helig]
  · intro s pid order
    rfl

/-- A user whose configuration passes every check except the duplicate
one. -/
def uC3 : UserRec :=
  { available_balance := 100000, total_deployed := 0, open_positions := 0
    max_open_positions := 5, ideal_risk_reward_ratio := 2.5, stop_loss_buffer := 0.5
    th_start := none, th_end := none
    active_brokers := [Broker.PAPER_BROKER], activity_logs := [] }

/-- Signal for the C3 witness. -/
def sigC3 : Signal :=
  { symbol := 21, expiry_date := 22, right := 23, strike_price := 24
    entry_price := 100, stop_loss := 90, target_price := 130
    transaction_type := TransactionType.BUY, lot_size := 25 }

/-- An entry order already carrying `position_id = 9`. -/
def oC3 : OrderRec :=
  { order_id := 6, user_id := 2, broker := Broker.PAPER_BROKER
    identifier := { symbol := 21, expiry_date := 22, right := 23, strike_price := 24 }
    symbol := 21, strike_price := 24, expiry_date := 22, right := 23
    entry_price := 100, stop_loss := 90, target := 130, quantity := 25
    position_type := PositionType.LONG, is_exit := false, position_id := some 9
    capital_to_block := 2500, status := OrderStatus.COMPLETED }

/-- Engine state for the C3 witness. -/
def sC3 : EngineState :=
  { ledger := { mongo := fun _ => none, redis := fun _ => none, mem := fun _ => none }
    orders := fun x => if x = 6 then some oC3 else none
    positions := fun _ => none
    posIdMap := fun _ => [7]
    posUserMap := fun _ => [7]
    closedPositions := []
    nextId := 0 }

/-- Witness for C3: position id 7 is shared by both mappings, so no
order is composed; and creating from an order that has `position_id`
is a no-op. -/
theorem c3_witness :
    composeOrderForUser (some uC3) sigC3 (fun _ => [7]) (fun _ => [7]) 2
      (fun _ _ => true) 0 = none ∧
    createOrUpdatePosition sC3 (some 9) oC3 = sC3 :=
  ⟨c3_position_uniqueness.1 (some uC3) sigC3 (fun _ => [7]) (fun _ => [7]) 2
      (fun _ _ => true) 0 7 (by simp) (by simp),
   c3_position_uniqueness.2 sC3 9 oC3⟩

/-- User with only 50 available. -/
def uC1poor : UserRec :=
  { available_balance := 50, total_deployed := 0, open_positions := 0
    max_open_positions := 5, ideal_risk_reward_ratio := 2.5, stop_loss_buffer := 0.5
    th_start := none, th_end := none
    active_brokers := [Broker.PAPER_BROKER], activity_logs := [] }

/-- Ledger whose Redis cache is cold for user 1 while MongoDB has the
document. -/
def sC1cold : LedgerState :=
  { mongo := fun x => if x = 1 then some uC1poor else none
    redis := fun _ => none
    mem := fun _ => none }

/-- C1 counterexample: blocking 100 against an available balance of 50
returns `False`, but the cached state is *not* "completely unchanged":
the initial `get_user` read populated the cold Redis cache with the
user's durable document. -/
theorem c1_counterexample :
    (blockCapital sC1cold 1 100).1 = false ∧
    (blockCapital sC1cold 1 100).2.redis 1 ≠ sC1cold.redis 1 := by
  constructor
  · norm_num [blockCapital, getUser, sC1cold, uC1poor]
  · norm_num [blockCapital, getUser, sC1cold, uC1poor]
    exact Option.some_ne_none _

/-- C1 (amended): `block_capital` succeeds exactly when the durable
store holds the user with `available_balance ≥ amount` at commit time
(re-validated by the conditional update, regardless of the earlier
cached read); on success the durable document gets exactly the three
increments plus the activity-log entry; on failure it returns false and
leaves the durable document, the in-memory map, and the cached values
unchanged — except that a cold-cache read may have populated Redis with
the user's (unchanged) durable document. -/
theorem c1_block_capital (s : LedgerState) (uid : ℕ) (amount : ℚ) :
    ((blockCapital s uid amount).1 = true ↔
      ∃ mu, s.mongo uid = some mu ∧ amount ≤ mu.available_balance) ∧
    (∀ mu, s.mongo uid = some mu → (blockCapital s uid amount).1 = true →
      (blockCapital s uid amount).2.mongo uid = some
        { mu with
          available_balance := mu.available_balance - amount
          total_deployed := mu.total_deployed + amount
          open_positions := mu.open_positions + 1
          activity_logs := LogEntry.blocked amount :: mu.activity_logs }) ∧
    ((blockCapital s uid amount).1 = false →
      (blockCapital s uid amount).2.mongo = s.mongo ∧
      (blockCapital s uid amount).2.mem = s.mem ∧
      ((blockCapital s uid amount).2.redis uid = s.redis uid ∨
        (s.redis uid = none ∧ (blockCapital s uid amount).2.redis uid = s.mongo uid)) ∧
      ∀ v, v ≠ uid → (blockCapital s uid amount).2.redis v = s.redis v) := by
  rcases hr : s.redis uid with _ | ur <;> rcases hm : s.mongo uid with _ | mu
  · simp [blockCapital, getUser, hr, hm]
  · by_cases hc : amount ≤ mu.available_balance
    · simp [blockCapital, getUser, hr, hm, hc]
    · simp [blockCapital, getUser, hr, hm, hc]
      intro v hv hv2
      exact absurd hv2 hv
  · simp [blockCapital, getUser, hr, hm]
  · by_cases hc : amount ≤ mu.available_balance <;>
      simp [blockCapital, getUser, hr, hm, hc]

/-- User with 1000 available, 200 deployed, 2 open positions. -/
def uC1rich : UserRec :=
  { available_balance := 1000, total_deployed := 200, open_positions := 2
    max_open_positions := 5, ideal_risk_reward_ratio := 2.5, stop_loss_buffer := 0.5
    th_start := none, th_end := none
    active_brokers := [Broker.PAPER_BROKER], activity_logs := [] }

/-- Ledger with user 1 present both durably and in the Redis cache. -/
def sC1rich : LedgerState :=
  { mongo := fun x => if x = 1 then some uC1rich else none
    redis := fun x => if x = 1 then some uC1rich else none
    mem := fun x => if x = 1 then some uC1rich else none }

/-- Witness for C1 applying both the success and the failure branch of
`c1_block_capital` at concrete ledgers. -/
theorem c1_witness :
    (blockCapital sC1rich 1 300).2.mongo 1 = some
      { uC1rich with
        available_balance := uC1rich.available_balance - 300
        total_deployed := uC1rich.total_deployed + 300
        open_positions := uC1rich.open_positions + 1
        activity_logs := LogEntry.blocked 300 :: uC1rich.activity_logs } ∧
    (blockCapital sC1cold 1 100).2.mongo = sC1cold.mongo :=
  ⟨(c1_block_capital sC1rich 1 300).2.1 uC1rich rfl
      (by norm_num [blockCapital, getUser, sC1rich, uC1rich]),
   ((c1_block_capital sC1cold 1 100).2.2
      (by norm_num [blockCapital, getUser, sC1cold, uC1poor])).1⟩

/-- A successful `block_capital` found the durable document, validated
`available_balance ≥ amount` there, and applied exactly the block
increments to it. -/
theorem blockCapital_success_spec (s : LedgerState) (uid : ℕ) (a : ℚ)
    (h : (blockCapital s uid a).1 = true) :
    ∃ mu, s.mongo uid = some mu ∧ a ≤ mu.available_balance ∧
      (blockCapital s uid a).2.mongo uid = some
        { mu with
          available_balance := mu.available_balance - a
          total_deployed := mu.total_deployed + a
          open_positions := mu.open_positions + 1
          activity_logs := LogEntry.blocked a :: mu.activity_logs } := by
  rcases hr : s.redis uid with _ | ur <;> rcases hm : s.mongo uid with _ | mu
  · simp [blockCapital, getUser, hr, hm] at h
  · by_cases hc : a ≤ mu.available_balance
    · exact ⟨mu, rfl, hc, by simp [blockCapital, getUser, hr, hm, hc]⟩
    · simp [blockCapital, getUser, hr, hm, hc] at h
  · simp [blockCapital, getUser, hr, hm] at h
  · by_cases hc : a ≤ mu.available_balance
    · exact ⟨mu, rfl, hc, by simp [blockCapital, getUser, hr, hm, hc]⟩
    · simp [blockCapital, getUser, hr, hm, hc] at h

/-- When the durable document exists, `release_capital` succeeds and
applies exactly the release increments to it. -/
theorem releaseCapital_of_mongo (s : LedgerState) (uid : ℕ) (a p : ℚ)
    (mu : UserRec) (hm : s.mongo uid = some mu) :
    (releaseCapital s uid a p).1 = true ∧
    (releaseCapital s uid a p).2.mongo uid = some
      { mu with
        available_balance := mu.available_balance + (a + p)
        total_deployed := mu.total_deployed - a
        open_positions := mu.open_positions - 1
        activity_logs := LogEntry.released a p :: mu.activity_logs } := by
  rcases hr : s.redis uid with _ | ur <;>
    simp [releaseCapital, getUser, hr, hm]

/-- Fact: `block_capital` never changes `available_balance + total_deployed`
in the durable store (success moves `amount` between the two fields,
failure changes nothing). -/
theorem blockCapital_sumAt (s : LedgerState) (uid : ℕ) (a : ℚ) :
    sumAt (blockCapital s uid a).2 uid = sumAt s uid := by
  rcases hr : s.redis uid with _ | ur <;> rcases hm : s.mongo uid with _ | mu
  · simp [blockCapital, getUser, sumAt, hr, hm]
  · by_cases hc : a ≤ mu.available_balance <;>
      simp [blockCapital, getUser, sumAt, hr, hm, hc]
  · simp [blockCapital, getUser, sumAt, hr, hm]
  · by_cases hc : a ≤ mu.available_balance <;>
      simp [blockCapital, getUser, sumAt, hr, hm, hc]

/-- Fact: `block_capital` neither creates nor deletes the durable document. -/
theorem blockCapital_mongo_isSome (s : LedgerState) (uid : ℕ) (a : ℚ) :
    ((blockCapital s uid a).2.mongo uid).isSome = (s.mongo uid).isSome := by
  rcases hr : s.redis uid with _ | ur <;> rcases hm : s.mongo uid with _ | mu
  · simp [blockCapital, getUser, hr, hm]
  · by_cases hc : a ≤ mu.available_balance <;>
      simp [blockCapital, getUser, hr, hm, hc]
  · simp [blockCapital, getUser, hr, hm]
  · by_cases hc : a ≤ mu.available_balance <;>
      simp [blockCapital, getUser, hr, hm, hc]

/-- When the durable document exists, `release_capital` adds exactly
`pnl` to `available_balance + total_deployed`. -/
theorem releaseCapital_sumAt (s : LedgerState) (uid : ℕ) (a p : ℚ)
    (h : (s.mongo uid).isSome = true) :
    sumAt (releaseCapital s uid a p).2 uid = sumAt s uid + p := by
  obtain ⟨mu, hm⟩ := Option.isSome_iff_exists.1 h
  obtain ⟨-, hm3⟩ := releaseCapital_of_mongo s uid a p mu hm
  simp only [sumAt, hm3, hm]
  ring

/-- Fact: `release_capital` neither creates nor deletes the durable document. -/
theorem releaseCapital_mongo_isSome (s : LedgerState) (uid : ℕ) (a p : ℚ) :
    ((releaseCapital s uid a p).2.mongo uid).isSome = (s.mongo uid).isSome := by
  rcases hr : s.redis uid with _ | ur <;> rcases hm : s.mongo uid with _ | mu <;>
    simp [releaseCapital, getUser, hr, hm]

/-- C2: (i) a successful `block(user, a)` followed by
`release(user, a, p)` succeeds, increases the durable
`available_balance + total_deployed` by exactly `p`, and returns the
open-position counter to its initial value; (ii) any sequence of block
and release calls for a user present in the durable store changes
`available_balance + total_deployed` by exactly the sum of the P&L
values passed to the release calls. -/
theorem c2_capital_conservation :
    (∀ (s : LedgerState) (uid : ℕ) (a p : ℚ),
      (blockCapital s uid a).1 = true →
      (releaseCapital (blockCapital s uid a).2 uid a p).1 = true ∧
      sumAt (releaseCapital (blockCapital s uid a).2 uid a p).2 uid =
        sumAt s uid + p ∧
      countAt (releaseCapital (blockCapital s uid a).2 uid a p).2 uid =
        countAt s uid) ∧
    (∀ (s : LedgerState) (uid : ℕ) (ops : List CapitalOp),
      (s.mongo uid).isSome = true →
      sumAt (applyCapitalOps s uid ops) uid = sumAt s uid + pnlTotal ops) := by
  constructor
  · intro s uid a p hb
    obtain ⟨mu, hm, -, hm2⟩ := blockCapital_success_spec s uid a hb
    obtain ⟨hrel, hm3⟩ := releaseCapital_of_mongo _ uid a p _ hm2
    refine ⟨hrel, ?_, ?_⟩
    · simp only [sumAt, hm3, hm]
      ring
    · simp only [countAt, hm3, hm]
      ring
  · intro s uid ops h
    induction ops generalizing s with
    | nil => simp [applyCapitalOps, pnlTotal]
    | cons op rest ih =>
      cases op with
      | blk a =>
        have h' : (((blockCapital s uid a).2).mongo uid).isSome = true := by
          rw [blockCapital_mongo_isSome]
          exact h
        calc sumAt (applyCapitalOps s uid (CapitalOp.blk a :: rest)) uid
            = sumAt (blockCapital s uid a).2 uid + pnlTotal rest := by
              rw [applyCapitalOps]
              exact ih _ h'
          _ = sumAt s uid + pnlTotal (CapitalOp.blk a :: rest) := by
              rw [blockCapital_sumAt, pnlTotal]
      | rel a p =>
        have h' : (((releaseCapital s uid a p).2).mongo uid).isSome = true := by
          rw [releaseCapital_mongo_isSome]
          exact h
        calc sumAt (applyCapitalOps s uid (CapitalOp.rel a p :: rest)) uid
            = sumAt (releaseCapital s uid a p).2 uid + pnlTotal rest := by
              rw [applyCapitalOps]
              exact ih _ h'
          _ = sumAt s uid + pnlTotal (CapitalOp.rel a p :: rest) := by
              rw [releaseCapital_sumAt s uid a p h, pnlTotal]
              ring

/-- User for the C2 witness. -/
def uC2 : UserRec :=
  { available_balance := 2000, total_deployed := 500, open_positions := 1
    max_open_positions := 5, ideal_risk_reward_ratio := 2.5, stop_loss_buffer := 0.5
    th_start := none, th_end := none
    active_brokers := [Broker.PAPER_BROKER], activity_logs := [] }

/-- Ledger for the C2 witness (user 1 durable and cached). -/
def sC2 : LedgerState :=
  { mongo := fun x => if x = 1 then some uC2 else none
    redis := fun x => if x = 1 then some uC2 else none
    mem := fun x => if x = 1 then some uC2 else none }

/-- Witness for C2: block 300 then release it with P&L 50 for user 1,
and the same pair as an op sequence. -/
theorem c2_witness :
    (releaseCapital (blockCapital sC2 1 300).2 1 300 50).1 = true ∧
    sumAt (releaseCapital (blockCapital sC2 1 300).2 1 300 50).2 1 =
      sumAt sC2 1 + 50 ∧
    countAt (releaseCapital (blockCapital sC2 1 300).2 1 300 50).2 1 =
      countAt sC2 1 ∧
    sumAt (applyCapitalOps sC2 1 [CapitalOp.blk 300, CapitalOp.rel 300 50]) 1 =
      sumAt sC2 1 + pnlTotal [CapitalOp.blk 300, CapitalOp.rel 300 50] := by
  obtain ⟨h1, h2, h3⟩ := c2_capital_conservation.1 sC2 1 300 50
    (by norm_num [blockCapital, getUser, sC2, uC2])
  exact ⟨h1, h2, h3, c2_capital_conservation.2 sC2 1 _ rfl⟩

/-- Re-setting the same status is a no-op on the orders map. -/
theorem updateOrderStatus_idem (os : ℕ → Option OrderRec) (oid : ℕ) (st : OrderStatus) :
    updateOrderStatus (updateOrderStatus os oid st) oid st =
      updateOrderStatus os oid st := by
  funext x
  unfold updateOrderStatus
  by_cases hx : x = oid
  · subst hx
    simp only [if_pos rfl]
    cases os x <;> rfl
  · simp only [if_neg hx]

/-- Writing a record's own status back is the identity. -/
theorem OrderRec.setStatus_self (o : OrderRec) :
    ({ o with status := o.status } : OrderRec) = o := rfl

/-- The status write leaves already-stable orders maps unchanged. -/
theorem updateOrderStatus_of_stable (os : ℕ → Option OrderRec) (oid : ℕ)
    (st : OrderStatus) (h : ∀ o, os oid = some o → o.status = st) :
    updateOrderStatus os oid st = os := by
  funext x
  unfold updateOrderStatus
  by_cases hx : x = oid
  · subst hx
    rw [if_pos rfl]
    cases ho : os x with
    | none => rfl
    | some o =>
      have hs := h o ho
      rw [Option.map_some', ← hs]
  · simp only [if_neg hx]

/-- Fact: `_close_position` never touches the orders collection. -/
theorem closePosition_orders (s : EngineState) (pid? : Option ℕ) (upd : OrderUpdate) :
    (closePosition s pid? upd).orders = s.orders := by
  unfold closePosition
  split
  · rfl
  · split <;> rfl

/-- Fact: `_close_position` with a missing position is a no-op. -/
theorem closePosition_of_missing (s : EngineState) (pid : ℕ) (upd : OrderUpdate)
    (h : s.positions pid = none) :
    closePosition s (some pid) upd = s := by
  simp only [closePosition, h]

/-- After `_close_position` removes a position, it is gone from the
hash. -/
theorem closePosition_positions_self (s : EngineState) (pid : ℕ) (upd : OrderUpdate)
    (pos : Position) (h : s.positions pid = some pos) :
    (closePosition s (some pid) upd).positions pid = none := by
  simp only [closePosition, h]
  simp

/-- A state on which a callback is a no-op: the order already carries
the callback status, and — for COMPLETED — the dispatch target is
exhausted (an exit order whose position is no longer in the hash, or an
entry order that already has its `position_id` back-reference). -/
theorem processOrderUpdate_fix (s : EngineState) (uid : ℕ) (upd : OrderUpdate)
    (hstable : updateOrderStatus s.orders upd.order_id upd.status = s.orders)
    (hdone : ∀ o, s.orders upd.order_id = some o →
      upd.status = OrderStatus.COMPLETED →
      (o.is_exit = true → (o.position_id = none ∨
        ∃ pid, o.position_id = some pid ∧ s.positions pid = none)) ∧
      (o.is_exit = false → ∃ pid, o.position_id = some pid)) :
    processOrderUpdate s uid upd = s := by
  have hmk : ({ s with orders := s.orders } : EngineState) = s := rfl
  simp only [processOrderUpdate, hstable, hmk]
  cases hst : upd.status with
  | COMPLETED =>
    cases ho : s.orders upd.order_id with
    | none => rfl
    | some o =>
      dsimp only
      by_cases he : o.is_exit
      · rw [if_pos he]
        rcases (hdone o ho hst).1 he with hnone | ⟨pid, hpid, hmiss⟩
        · rw [hnone]
          rfl
        · rw [hpid]
          exact closePosition_of_missing s pid upd hmiss
      · rw [if_neg he]
        obtain ⟨pid, hpid⟩ := (hdone o ho hst).2 (by simpa using he)
        rw [hpid]
        rfl
  | CANCELLED => cases ho : s.orders upd.order_id <;> rfl
  | REJECTED => cases ho : s.orders upd.order_id <;> rfl
  | PENDING => rfl
  | OPEN => rfl

/-- On CANCELLED/REJECTED the reconciler only writes the status (the
capital-release call dies on its arity mismatch). -/
theorem processOrderUpdate_cancelled_or_rejected (s : EngineState) (uid : ℕ)
    (upd : OrderUpdate)
    (h : upd.status = OrderStatus.CANCELLED ∨ upd.status = OrderStatus.REJECTED) :
    processOrderUpdate s uid upd =
      { s with orders := updateOrderStatus s.orders upd.order_id upd.status } := by
  rcases h with h | h <;>
    (simp only [processOrderUpdate, h]; split <;> rfl)

/-- A callback for an unknown order id changes nothing. -/
theorem processOrderUpdate_of_no_order (s : EngineState) (uid : ℕ)
    (upd : OrderUpdate) (h : s.orders upd.order_id = none) :
    processOrderUpdate s uid upd = s := by
  apply processOrderUpdate_fix
  · exact updateOrderStatus_of_stable _ _ _
      (fun o ho => by rw [h] at ho; exact absurd ho (by simp))
  · intro o ho
    rw [h] at ho
    exact absurd ho (by simp)

/-- On a COMPLETED callback for a known order, the reconciler writes the
status and dispatches on `is_exit` with the stored `position_id`. -/
theorem processOrderUpdate_completed_some (s : EngineState) (uid : ℕ)
    (upd : OrderUpdate) (o : OrderRec)
    (hst : upd.status = OrderStatus.COMPLETED)
    (ho : s.orders upd.order_id = some o) :
    processOrderUpdate s uid upd =
      (if o.is_exit then
        closePosition
          { s with orders := updateOrderStatus s.orders upd.order_id upd.status }
          o.position_id upd
      else
        createOrUpdatePosition
          { s with orders := updateOrderStatus s.orders upd.order_id upd.status }
          o.position_id { o with status := OrderStatus.COMPLETED }) := by
  have h2 : (updateOrderStatus s.orders upd.order_id OrderStatus.COMPLETED)
      upd.order_id = some { o with status := OrderStatus.COMPLETED } := by
    simp [updateOrderStatus, ho]
  simp only [processOrderUpdate, hst, h2]

/-- Creating a position from an entry order writes the `position_id`
back-reference on the order document. -/
theorem createOrUpdatePosition_none_orders (s : EngineState) (order : OrderRec) :
    (createOrUpdatePosition s none order).orders =
      fun x => if x = order.order_id
        then (s.orders order.order_id).map
          (fun o => { o with position_id := some s.nextId })
        else s.orders x := by
  rfl

/-- Creating a position from an entry order does not change the
`nextId` view of other components...  The positions hash gains exactly
the fresh id. -/
theorem createOrUpdatePosition_none_positions (s : EngineState) (order : OrderRec) :
    ∀ x, x ≠ s.nextId →
      (createOrUpdatePosition s none order).positions x = s.positions x := by
  intro x hx
  simp [createOrUpdatePosition, hx]

/-- C4: delivering the same terminal callback (COMPLETED, CANCELLED or
REJECTED) twice produces the same end state as delivering it once —
no capital is released a second time and no duplicate position is
created.  (`hwf`: every stored order document is keyed by its own
`order_id`, which the insertion paths guarantee.)  The idempotence does
not come from a terminality check — `_process_order_update` has none —
but from the `position_id` back-reference, the position's absence after
a close, and the fact that the CANCELLED/REJECTED release call always
dies on its arity mismatch. -/
theorem c4_idempotent_terminal_callback (s : EngineState) (uid : ℕ)
    (upd : OrderUpdate)
    (hwf : ∀ k o, s.orders k = some o → o.order_id = k)
    (hterm : upd.status = OrderStatus.COMPLETED ∨
      upd.status = OrderStatus.CANCELLED ∨ upd.status = OrderStatus.REJECTED) :
    processOrderUpdate (processOrderUpdate s uid upd) uid upd =
      processOrderUpdate s uid upd := by
  rcases hterm with hst | hst
  · -- COMPLETED
    cases ho : s.orders upd.order_id with
    | none =>
      rw [processOrderUpdate_of_no_order s uid upd ho]
      exact processOrderUpdate_of_no_order s uid upd ho
    | some o =>
      have hoid : o.order_id = upd.order_id := hwf _ _ ho
      have h2 : (updateOrderStatus s.orders upd.order_id upd.status) upd.order_id
          = some { o with status := OrderStatus.COMPLETED } := by
        rw [hst]
        simp [updateOrderStatus, ho]
      rw [processOrderUpdate_completed_some s uid upd o hst ho]
      by_cases he : o.is_exit
      · rw [if_pos he]
        cases hpid : o.position_id with
        | none =>
          apply processOrderUpdate_fix
          · exact updateOrderStatus_idem s.orders upd.order_id upd.status
          · intro o' ho' hc
            have ho2 : (updateOrderStatus s.orders upd.order_id upd.status)
                upd.order_id = some o' := ho'
            rw [h2] at ho2
            injection ho2 with ho3
            subst ho3
            constructor
            · intro _
              exact Or.inl hpid
            · intro hf
              rw [show ({ o with status := OrderStatus.COMPLETED } : OrderRec).is_exit
                  = o.is_exit from rfl] at hf
              rw [he] at hf
              cases hf
        | some pid =>
          cases hpos : s.positions pid with
          | none =>
            rw [closePosition_of_missing
              { s with orders := updateOrderStatus s.orders upd.order_id upd.status }
              pid upd hpos]
            apply processOrderUpdate_fix
            · exact updateOrderStatus_idem s.orders upd.order_id upd.status
            · intro o' ho' hc
              have ho2 : (updateOrderStatus s.orders upd.order_id upd.status)
                  upd.order_id = some o' := ho'
              rw [h2] at ho2
              injection ho2 with ho3
              subst ho3
              constructor
              · intro _
                exact Or.inr ⟨pid, hpid, hpos⟩
              · intro hf
                rw [show ({ o with status := OrderStatus.COMPLETED } : OrderRec).is_exit
                    = o.is_exit from rfl] at hf
                rw [he] at hf
                cases hf
          | some pos =>
            apply processOrderUpdate_fix
            · rw [closePosition_orders]
              exact updateOrderStatus_idem s.orders upd.order_id upd.status
            · intro o' ho' hc
              rw [closePosition_orders] at ho'
              have ho2 : (updateOrderStatus s.orders upd.order_id upd.status)
                  upd.order_id = some o' := ho'
              rw [h2] at ho2
              injection ho2 with ho3
              subst ho3
              constructor
              · intro _
                exact Or.inr ⟨pid, hpid,
                  closePosition_positions_self _ pid upd pos hpos⟩
              · intro hf
                rw [show ({ o with status := OrderStatus.COMPLETED } : OrderRec).is_exit
                    = o.is_exit from rfl] at hf
                rw [he] at hf
                cases hf
      · rw [if_neg he]
        cases hpid : o.position_id with
        | some pid =>
          apply processOrderUpdate_fix
          · exact updateOrderStatus_idem s.orders upd.order_id upd.status
          · intro o' ho' hc
            have ho2 : (updateOrderStatus s.orders upd.order_id upd.status)
                upd.order_id = some o' := ho'
            rw [h2] at ho2
            injection ho2 with ho3
            subst ho3
            constructor
            · intro ht
              rw [show ({ o with status := OrderStatus.COMPLETED } : OrderRec).is_exit
                  = o.is_exit from rfl] at ht
              exact absurd ht he
            · intro _
              exact ⟨pid, hpid⟩
        | none =>
          apply processOrderUpdate_fix
          · apply updateOrderStatus_of_stable
            intro o' ho'
            rw [createOrUpdatePosition_none_orders] at ho'
            simp [hoid, h2] at ho'
            subst ho'
            simp [hst]
          · intro o' ho' hc
            rw [createOrUpdatePosition_none_orders] at ho'
            simp [hoid, h2] at ho'
            subst ho'
            constructor
            · intro ht
              exact absurd ht he
            · intro _
              exact ⟨_, rfl⟩
  · -- CANCELLED or REJECTED
    rw [processOrderUpdate_cancelled_or_rejected s uid upd hst]
    apply processOrderUpdate_fix
    · exact updateOrderStatus_idem s.orders upd.order_id upd.status
    · intro o ho hc
      rcases hst with h | h <;> (rw [h] at hc; exact absurd hc (by simp))

/-- User for the C4 witness. -/
def uC4 : UserRec :=
  { available_balance := 8000, total_deployed := 2000, open_positions := 1
    max_open_positions := 5, ideal_risk_reward_ratio := 2.5, stop_loss_buffer := 0.5
    th_start := none, th_end := none
    active_brokers := [Broker.PAPER_BROKER], activity_logs := [] }

/-- A PENDING entry order (no position yet) for the C4 witness. -/
def oC4 : OrderRec :=
  { order_id := 5, user_id := 1, broker := Broker.PAPER_BROKER
    identifier := { symbol := 1, expiry_date := 2, right := 3, strike_price := 4 }
    symbol := 1, strike_price := 4, expiry_date := 2, right := 3
    entry_price := 100, stop_loss := 95, target := 110, quantity := 25
    position_type := PositionType.LONG, is_exit := false, position_id := none
    capital_to_block := 2500, status := OrderStatus.PENDING }

/-- Engine state for the C4 witness. -/
def sC4 : EngineState :=
  { ledger :=
      { mongo := fun x => if x = 1 then some uC4 else none
        redis := fun _ => none
        mem := fun _ => none }
    orders := fun x => if x = 5 then some oC4 else none
    positions := fun _ => none
    posIdMap := fun _ => []
    posUserMap := fun _ => []
    closedPositions := []
    nextId := 0 }

/-- The COMPLETED broker callback for order 5. -/
def updC4 : OrderUpdate :=
  { order_id := 5, status := OrderStatus.COMPLETED, average_price := 100 }

/-- Witness for C4: delivering the COMPLETED entry fill twice equals
delivering it once on a concrete engine state. -/
theorem c4_witness :
    processOrderUpdate (processOrderUpdate sC4 1 updC4) 1 updC4 =
      processOrderUpdate sC4 1 updC4 :=
  c4_idempotent_terminal_callback sC4 1 updC4
    (by
      intro k o h
      by_cases hk : k = 5
      · subst hk
        simp [sC4] at h
        subst h
        rfl
      · simp [sC4, hk] at h)
    (Or.inl rfl)
